import Mathlib

/-!
# Verification of the clawplace pixel-placement service

Shallow embedding of the clawplace repository's core: the db layer
(`src/lib/db.ts`, Turso revision), the pixel route
(`src/app/api/pixel/route.ts`), the canvas cache (`src/lib/canvas-cache.ts`),
the SSE stream route (`src/app/api/stream/route.ts`) and the public agents
endpoint.  Database tables are modelled as Lean lists of rows, SQL statements
as list transformations, and JavaScript values reaching the handlers as a
small JSON value type.  Timestamps are integers (`Date.now()` milliseconds);
each handler receives its `now` explicitly.
-/

/-- A JSON/JavaScript value as it reaches a route handler after `JSON.parse`.
`undef` models a destructured field that is absent (`undefined`).  Numbers are
modelled as rationals: JSON numerals are decimal and `Number.isInteger`
corresponds to denominator 1.  The only arrays occurring in the modelled
payloads are arrays of strings (the color palette), hence `arrS`. -/
inductive JVal where
  | s (v : String)
  | n (v : ℚ)
  | b (v : Bool)
  | arrS (vs : List String)
  | null
  | undef
deriving Repr, DecidableEq

/-- Row of the `agents` table (interface `Agent` in db.ts). -/
structure Agent where
  id : String
  name : String
  token : String
  color : String
  created_at : Int
  last_pixel_at : Int
deriving Repr, DecidableEq

/-- Row of the `pixels` table (interface `Pixel` in db.ts). -/
structure Pixel where
  x : Int
  y : Int
  color : String
  agent_id : String
  placed_at : Int
deriving Repr, DecidableEq

/-- The `SafeAgent` projection from db.ts: the agent projection with the token stripped,
used for all bulk exports. -/
structure SafeAgent where
  id : String
  name : String
  color : String
  created_at : Int
deriving Repr, DecidableEq

/-- Constant `RATE_LIMIT_MS = 7 * 1000` (db.ts). -/
def RATE_LIMIT_MS : Int := 7 * 1000

/-- Constant `MIN_COORDINATE = 0` (db.ts). -/
def MIN_COORDINATE : Int := 0

/-- Constant `MAX_COORDINATE = 999` (db.ts). -/
def MAX_COORDINATE : Int := 999

/-- Constant `COLOR_PALETTE` (db.ts): the 16 colors of the original r/place palette. -/
def COLOR_PALETTE : List String :=
  ["#FFFFFF", "#E4E4E4", "#888888", "#222222",
   "#FFA7D1", "#E50000", "#E59500", "#A06A42",
   "#E5D900", "#94E044", "#02BE01", "#00D3DD",
   "#0083C7", "#0000EA", "#CF6EE4", "#820080"]

/-- Statement `SELECT * FROM agents WHERE token = ?` (dbOps.getAgentByToken). -/
def dbOps.getAgentByToken (agents : List Agent) (token : String) : Option Agent :=
  agents.find? (fun a => a.token == token)

/-- Statement `SELECT * FROM agents WHERE id = ?` (dbOps.getAgentById). -/
def dbOps.getAgentById (agents : List Agent) (id : String) : Option Agent :=
  agents.find? (fun a => a.id == id)

/-- The row update `last_pixel_at = now`. -/
def setLastPixelAt (a : Agent) (now : Int) : Agent := { a with last_pixel_at := now }

/-- The `WHERE id = ? AND last_pixel_at < ?` condition of the conditional
update in dbOps.atomicPlacePixel (`cutoff = now - rateLimitMs`). -/
def eligibleRow (agentId : String) (cutoff : Int) (a : Agent) : Bool :=
  a.id == agentId && decide (a.last_pixel_at < cutoff)

/-- dbOps.atomicPlacePixel (db.ts): one SQL statement
`UPDATE agents SET last_pixel_at = ? WHERE id = ? AND last_pixel_at < ? RETURNING *`
with `cutoff = now - rateLimitMs`.  Returns the first returned (updated) row,
or `none` when no row matched, together with the table after the update.
The statement is atomic per row at the storage layer; here it is one Lean
function application, which is the atomicity assumption of the model. -/
def dbOps.atomicPlacePixel (agents : List Agent) (agentId : String)
    (rateLimitMs now : Int) : Option Agent × List Agent :=
  let cutoff := now - rateLimitMs
  (((agents.filter (eligibleRow agentId cutoff)).map (fun a => setLastPixelAt a now)).head?,
   agents.map (fun a => if eligibleRow agentId cutoff a then setLastPixelAt a now else a))

/-- getTimeUntilNextPixel (db.ts): reads the agent and returns
`max 0 (RATE_LIMIT_MS - (now - last_pixel_at))`, `0` when the agent does not
exist. -/
def getTimeUntilNextPixel (agents : List Agent) (agentId : String) (now : Int) : Int :=
  match dbOps.getAgentById agents agentId with
  | none => 0
  | some a => max 0 (RATE_LIMIT_MS - (now - a.last_pixel_at))

/-- The `(x, y)` primary-key match used by the pixel statements. -/
def pixelKeyEq (x y : Int) (p : Pixel) : Bool :=
  p.x == x && p.y == y

/-- Statement `SELECT * FROM pixels WHERE x = ? AND y = ?` (dbOps.getPixel). -/
def dbOps.getPixel (pixels : List Pixel) (x y : Int) : Option Pixel :=
  pixels.find? (pixelKeyEq x y)

/-- The `INSERT ... ON CONFLICT(x, y) DO UPDATE` upsert on the pixels table:
at most one row per coordinate, and the new row replaces any old one. -/
def upsertPixel (pixels : List Pixel) (x y : Int) (color agent_id : String)
    (placed_at : Int) : List Pixel :=
  ⟨x, y, color, agent_id, placed_at⟩ :: pixels.filter (fun p => !(pixelKeyEq x y p))

/-- dbOps.placePixel (db.ts): upserts the current-state row and appends a
`pixel_history` row.  Returns (pixels table, history table). -/
def dbOps.placePixel (pixels history : List Pixel) (x y : Int)
    (color agent_id : String) (placed_at : Int) : List Pixel × List Pixel :=
  (upsertPixel pixels x y color agent_id placed_at,
   history ++ [⟨x, y, color, agent_id, placed_at⟩])

/-- Statement `SELECT id, name, color, created_at FROM agents ORDER BY created_at DESC`:
insertion step of the descending-by-`created_at` sort. -/
def insertByCreatedDesc (a : Agent) : List Agent → List Agent
  | [] => [a]
  | b :: rest =>
    if b.created_at ≥ a.created_at then b :: insertByCreatedDesc a rest
    else a :: b :: rest

/-- Sorting `ORDER BY created_at DESC` over the agents table. -/
def orderByCreatedDesc : List Agent → List Agent
  | [] => []
  | a :: rest => insertByCreatedDesc a (orderByCreatedDesc rest)

/-- The column projection of dbOps.getAllAgents: only id, name, color and
created_at are selected; the token column is not part of the statement. -/
def toSafeAgent (a : Agent) : SafeAgent :=
  { id := a.id, name := a.name, color := a.color, created_at := a.created_at }

/-- dbOps.getAllAgents (db.ts):
`SELECT id, name, color, created_at FROM agents ORDER BY created_at DESC`. -/
def dbOps.getAllAgents (agents : List Agent) : List SafeAgent :=
  (orderByCreatedDesc agents).map toSafeAgent

/-- Statement `SELECT agent_id, COUNT(*) ... GROUP BY agent_id` as consumed by the
agents endpoint: the count of pixel rows owned by one agent (the endpoint
looks each agent up in the grouped result and defaults to 0). -/
def agentPixelCount (pixels : List Pixel) (agentId : String) : Nat :=
  (pixels.filter (fun p => p.agent_id == agentId)).length

/-- validateCoordinates (db.ts).  Mirrors the three checks in order:
`typeof x !== 'number'`, `Number.isInteger`, and the `[MIN, MAX]` range. -/
structure CoordValidation where
  valid : Bool
  error : Option String
  minCoordinate : Option Int
  maxCoordinate : Option Int
deriving Repr, DecidableEq

/-- Check `Number.isInteger` on a JSON number. -/
def isIntegerNum (q : ℚ) : Bool := q.den == 1

/-- validateCoordinates (db.ts). -/
def validateCoordinates (x y : JVal) : CoordValidation :=
  match x, y with
  | JVal.n a, JVal.n b =>
    if !(isIntegerNum a && isIntegerNum b) then
      ⟨false, some "x and y must be integers", some MIN_COORDINATE, some MAX_COORDINATE⟩
    else if decide (a < (MIN_COORDINATE : ℚ)) || decide (a > (MAX_COORDINATE : ℚ)) ||
            decide (b < (MIN_COORDINATE : ℚ)) || decide (b > (MAX_COORDINATE : ℚ)) then
      ⟨false, some "Coordinates must be within 0-999", some MIN_COORDINATE, some MAX_COORDINATE⟩
    else ⟨true, none, none, none⟩
  | _, _ => ⟨false, some "x and y must be numbers", some MIN_COORDINATE, some MAX_COORDINATE⟩

/-- JavaScript `toUpperCase` (String.toUpper): uppercase every character.
Written over the character list so that it evaluates inside the kernel. -/
def strToUpper (s : String) : String := String.mk (s.data.map Char.toUpper)

/-- Result record of validateColor (db.ts). -/
structure ColorValidation where
  valid : Bool
  error : Option String
  palette : Option (List String)
deriving Repr, DecidableEq

/-- validateColor (db.ts): uppercases and tests palette membership.  The
`typeof color !== 'string'` branch is unrepresentable here because the route
only ever reaches validateColor with a string (a non-string color throws in
`.toUpperCase()` first, see placePOST). -/
def validateColor (color : String) : ColorValidation :=
  let normalized := strToUpper color
  if !(COLOR_PALETTE.contains normalized) then
    ⟨false, some "Color must be from the 16-color palette", some COLOR_PALETTE⟩
  else ⟨true, none, none⟩

/-- The combined server state threaded through a request: both database
tables, the pixel_history table and the process-local canvas cache
(`pixelMap` in canvas-cache.ts, `none` while not yet loaded). -/
structure ServerState where
  agents : List Agent
  pixels : List Pixel
  pixel_history : List Pixel
  cache : Option (List Pixel)
deriving Repr, DecidableEq

/-- The parsed JSON body of a placement POST (`const { x, y, color } = body`);
absent fields destructure to `undef`. -/
structure PostBody where
  x : JVal
  y : JVal
  color : JVal
deriving Repr, DecidableEq

/-- A placement request: the authorization header (if present) and the parsed
body (`none` when the body was not valid JSON). -/
structure PostRequest where
  authHeader : Option String
  body : Option PostBody
deriving Repr, DecidableEq

/-- The payload handed to broadcastPixel for the SSE fan-out. -/
structure BroadcastEvent where
  x : Int
  y : Int
  color : String
  agentId : String
  agentName : String
  wasOverride : Bool
  previousAgentId : Option String
  timestamp : Int
deriving Repr, DecidableEq

/-- The structured responses the pixel POST route can produce, one
constructor per `NextResponse.json` site in route.ts. -/
inductive PostResponse where
  | invalidJson
  | missingAuthorization
  | invalidTokenFormat
  | invalidToken
  | invalidCoordinates (message : String) (maxCoordinate : Int)
  | invalidColor (message : String) (palette : List String)
  | rateLimited (waitTimeMs nextPixelAt cooldownMs : Int)
  | success (x y : Int) (color : String) (agentId agentName : String)
      (wasOverride : Bool) (previousAgentId : Option String) (nextPixelAt : Int)
  | serverError
deriving Repr, DecidableEq

/-- Whether a response is the success response. -/
def PostResponse.isSuccess : PostResponse → Bool
  | .success .. => true
  | _ => false

/-- JavaScript `Math.ceil(a / b)` for a positive divisor. -/
def mathCeilDiv (a b : Int) : Int := -((-a).fdiv b)

/-- The JSON object each response serializes to, written out from the
`NextResponse.json({...})` literals in route.ts (header fields are not
modelled).  `undefined` object values are dropped by JSON serialization,
hence the conditional `previousAgentId` entry of the success payload. -/
def postResponseJson : PostResponse → List (String × JVal)
  | .invalidJson =>
      [("error", .s "invalid_json"), ("message", .s "Request body must be valid JSON")]
  | .missingAuthorization =>
      [("error", .s "missing_authorization"),
       ("message", .s "Missing or invalid authorization header. Use: Authorization: Bearer YOUR_TOKEN")]
  | .invalidTokenFormat =>
      [("error", .s "invalid_token"), ("message", .s "Invalid token format")]
  | .invalidToken =>
      [("error", .s "invalid_token"), ("message", .s "Invalid token")]
  | .invalidCoordinates msg maxC =>
      [("error", .s "invalid_coordinates"), ("message", .s msg),
       ("maxCoordinate", .n (maxC : ℚ))]
  | .invalidColor msg palette =>
      [("error", .s "invalid_color"), ("message", .s msg),
       ("palette", .arrS palette),
       ("hint", .s "Use one of the 16 colors from the original r/place palette")]
  | .rateLimited waitMs nextAt cooldown =>
      [("error", .s "rate_limit_exceeded"),
       ("message", .s ("You must wait " ++ toString (mathCeilDiv waitMs 1000) ++
         " seconds before placing another pixel")),
       ("waitTimeMs", .n (waitMs : ℚ)), ("nextPixelAt", .n (nextAt : ℚ)),
       ("cooldownMs", .n (cooldown : ℚ))]
  | .success x y color agentId agentName wasOverride previousAgentId nextAt =>
      [("success", .b true), ("x", .n (x : ℚ)), ("y", .n (y : ℚ)),
       ("color", .s color), ("agentId", .s agentId), ("agentName", .s agentName),
       ("wasOverride", .b wasOverride)] ++
      (match previousAgentId with
       | some pid => if wasOverride then [("previousAgentId", .s pid)] else []
       | none => []) ++
      [("nextPixelAt", .n (nextAt : ℚ))]
  | .serverError =>
      [("error", .s "server_error"), ("message", .s "Failed to place pixel")]

/-- Extract the bearer token from the authorization header:
`authHeader.startsWith('Bearer ')` then `authHeader.slice(7)`. -/
def bearerToken : Option String → Option String
  | none => none
  | some h =>
    if "Bearer ".data.isPrefixOf h.data then some (String.mk (h.data.drop 7))
    else none

/-- One character of the token-format regex `[a-f0-9]` with the `i` flag. -/
def isHexChar (c : Char) : Bool :=
  c.isDigit || (decide ('a' ≤ c) && decide (c ≤ 'f')) || (decide ('A' ≤ c) && decide (c ≤ 'F'))

/-- The token-format check `/^[a-f0-9]{64}$/i.test(token)`. -/
def isHexToken (t : String) : Bool :=
  t.length == 64 && t.data.all isHexChar

/-- secureCompare (route.ts): `crypto.timingSafeEqual` over the NUL-padded
strings plus a length check, which is extensionally string equality. -/
def secureCompare (a b : String) : Bool := a == b

/-- JavaScript truthiness on the modelled values (`color || agent.color`):
the falsy values are the empty string, 0, false, null and undefined. -/
def jsFalsy : JVal → Bool
  | .s v => v == ""
  | .n v => v == 0
  | .b v => !v
  | .arrS _ => false
  | .null => true
  | .undef => true

/-- Reading a validated coordinate as the integer it denotes (used only after
validateCoordinates has accepted, where the denominator is 1). -/
def jsAsInt : JVal → Int
  | .n q => q.num
  | _ => 0

/-- The POST handler of src/app/api/pixel/route.ts, stage by stage: JSON
parse, authorization header, token format, token lookup, constant-time
re-check, coordinate validation, `(color || agent.color).toUpperCase()`
(a non-string truthy color throws here and is caught by the route's
catch-all, yielding the 500 response), validateColor, the atomic cooldown
update, the override read, the commit, and the broadcast.  `now` stands for
the `Date.now()` reads of the request (taken as one instant).  Returns the
response, the state after the request, and the broadcast event if any.
The canvas cache is part of the state; the handler never touches it. -/
def placePOST (st : ServerState) (req : PostRequest) (now : Int) :
    PostResponse × ServerState × Option BroadcastEvent :=
  match req.body with
  | none => (.invalidJson, st, none)
  | some body =>
    match bearerToken req.authHeader with
    | none => (.missingAuthorization, st, none)
    | some token =>
      if !isHexToken token then (.invalidTokenFormat, st, none)
      else
        match dbOps.getAgentByToken st.agents token with
        | none => (.invalidToken, st, none)
        | some agent =>
          if !secureCompare token agent.token then (.invalidToken, st, none)
          else
            let cv := validateCoordinates body.x body.y
            if !cv.valid then
              (.invalidCoordinates (cv.error.getD "") MAX_COORDINATE, st, none)
            else
              match (if jsFalsy body.color then JVal.s agent.color else body.color) with
              | JVal.s c =>
                let finalColor := strToUpper c
                let colv := validateColor finalColor
                if !colv.valid then
                  (.invalidColor (colv.error.getD "") COLOR_PALETTE, st, none)
                else
                  let x := jsAsInt body.x
                  let y := jsAsInt body.y
                  match dbOps.atomicPlacePixel st.agents agent.id RATE_LIMIT_MS now with
                  | (none, agents1) =>
                    let waitTime := getTimeUntilNextPixel agents1 agent.id now
                    (.rateLimited waitTime (now + waitTime) RATE_LIMIT_MS,
                     { st with agents := agents1 }, none)
                  | (some _, agents1) =>
                    let existing := dbOps.getPixel st.pixels x y
                    let wasOverride := existing.isSome
                    let previousAgentId := Option.map Pixel.agent_id existing
                    let placed := dbOps.placePixel st.pixels st.pixel_history x y
                      (strToUpper finalColor) agent.id now
                    (.success x y (strToUpper finalColor) agent.id agent.name wasOverride
                       previousAgentId (now + RATE_LIMIT_MS),
                     { st with agents := agents1, pixels := placed.1,
                               pixel_history := placed.2 },
                     some ⟨x, y, strToUpper finalColor, agent.id, agent.name, wasOverride,
                           previousAgentId, now⟩)
              | _ => (.serverError, st, none)

/-- updatePixel (canvas-cache.ts): a no-op while the cache has not loaded,
otherwise `pixelMap.set(key(x,y), {...})`. -/
def canvasCache.updatePixel (cache : Option (List Pixel)) (x y : Int)
    (color agent_id : String) (placed_at : Int) : Option (List Pixel) :=
  match cache with
  | none => none
  | some m => some (upsertPixel m x y color agent_id placed_at)

/-- ensureLoaded (canvas-cache.ts): on first use the cache bulk-loads every
row of the pixels table; afterwards it is served as is. -/
def canvasCache.ensureLoaded (cache : Option (List Pixel)) (storePixels : List Pixel) :
    Option (List Pixel) :=
  match cache with
  | some m => some m
  | none => some storePixels

/-- getPixel (canvas-cache.ts) on a loaded cache. -/
def canvasCache.getPixel (cache : List Pixel) (x y : Int) : Option Pixel :=
  dbOps.getPixel cache x y

/-- A connected SSE client as stored in the `clients` map (stream/route.ts):
the metadata, without the stream controller. -/
structure StreamClient where
  ip : String
  connectedAt : Int
deriving Repr, DecidableEq

/-- The broadcaster's module-level state (stream/route.ts): the `clients`
map keyed by the internal client id and the `connectionsPerIP` map.
JavaScript `Map`s are modelled as association lists in insertion order. -/
structure BroadcasterState where
  clients : List (String × StreamClient)
  connectionsPerIP : List (String × Nat)
deriving Repr, DecidableEq

/-- Lookup `map.get(k) || 0` on the per-IP counter map. -/
def ipMapGetD (m : List (String × Nat)) (k : String) : Nat :=
  match m.find? (fun e => e.1 == k) with
  | some e => e.2
  | none => 0

/-- Update `map.set(k, v)`: in place if present, else append. -/
def ipMapSet (m : List (String × Nat)) (k : String) (v : Nat) : List (String × Nat) :=
  if m.any (fun e => e.1 == k) then
    m.map (fun e => if e.1 == k then (k, v) else e)
  else m ++ [(k, v)]

/-- Deletion `map.delete(k)`. -/
def ipMapDelete (m : List (String × Nat)) (k : String) : List (String × Nat) :=
  m.filter (fun e => !(e.1 == k))

/-- releaseConnection (stream/route.ts):
decrement the IP's counter when positive, and drop the entry when the value
read was at most 1. -/
def releaseConnection (m : List (String × Nat)) (ip : String) : List (String × Nat) :=
  let current := ipMapGetD m ip
  let m1 := if current > 0 then ipMapSet m ip (current - 1) else m
  if current ≤ 1 then ipMapDelete m1 ip else m1

/-- Deletion `clients.delete(internalClientId)`. -/
def clientsDelete (cs : List (String × StreamClient)) (clientId : String) :
    List (String × StreamClient) :=
  cs.filter (fun e => !(e.1 == clientId))

/-- The unsubscribe/cleanup path run for a connection on abort, cancel or
timeout (stream/route.ts): `releaseConnection(ip); clients.delete(id)`. -/
def cleanupConnection (st : BroadcasterState) (clientId ip : String) :
    BroadcasterState :=
  { clients := clientsDelete st.clients clientId
  , connectionsPerIP := releaseConnection st.connectionsPerIP ip }

/-- The ids of the agents table are pairwise distinct (`id TEXT PRIMARY KEY`
in the schema). -/
def uniqueIds (agents : List Agent) : Prop :=
  agents.Pairwise (fun a b => a.id ≠ b.id)

/-- The store operations one placement request performs after validation, in
program order (route.ts lines 124-153): the atomic conditional update, the
override read, and the pixel upsert.  Each is a single database call and is
taken as one atomic step of the interleaving model. -/
inductive ReqOp where
  | admission
  | readPrev
  | writePixel
deriving Repr, DecidableEq

/-- The store-operation list of one request. -/
def reqOps : List ReqOp := [ReqOp.admission, ReqOp.readPrev, ReqOp.writePixel]

/-- The per-request constants: which agent, the request's `Date.now()`, and
the validated coordinate/color payload. -/
structure ReqCtx where
  agentId : String
  now : Int
  x : Int
  y : Int
  color : String
deriving Repr, DecidableEq

/-- The private progress of one in-flight request: its remaining store
operations, whether its admission succeeded, and the override read result. -/
structure ReqRun where
  pending : List ReqOp
  admitted : Bool
  prevRead : Option (Option Pixel)
deriving Repr, DecidableEq

/-- A request about to start. -/
def initRun : ReqRun := ⟨reqOps, false, none⟩

/-- Execute one store operation of a request against the shared state. -/
def doStoreOp (cooldown : Int) (ctx : ReqCtx) (st : ServerState) (r : ReqRun)
    (op : ReqOp) : ServerState × ReqRun :=
  match op with
  | ReqOp.admission =>
    let res := dbOps.atomicPlacePixel st.agents ctx.agentId cooldown ctx.now
    ({ st with agents := res.2 }, { r with admitted := res.1.isSome })
  | ReqOp.readPrev =>
    (st, { r with prevRead := some (dbOps.getPixel st.pixels ctx.x ctx.y) })
  | ReqOp.writePixel =>
    if r.admitted then
      let placed := dbOps.placePixel st.pixels st.pixel_history ctx.x ctx.y
        ctx.color ctx.agentId ctx.now
      ({ st with pixels := placed.1, pixel_history := placed.2 }, r)
    else (st, r)

/-- Let a request take its next pending store operation (a no-op when it has
finished). -/
def stepReq (cooldown : Int) (ctx : ReqCtx) (st : ServerState) (r : ReqRun) :
    ServerState × ReqRun :=
  match r.pending with
  | [] => (st, r)
  | op :: rest => doStoreOp cooldown ctx st { r with pending := rest } op

/-- Run two concurrent requests A and B under an arbitrary interleaving of
their store operations: the schedule says at each step which request moves. -/
def execInterleaving (cooldown : Int) (ctxA ctxB : ReqCtx) :
    List Bool → ServerState → ReqRun → ReqRun → ServerState × ReqRun × ReqRun
  | [], st, ra, rb => (st, ra, rb)
  | true :: sched, st, ra, rb =>
    let p := stepReq cooldown ctxA st ra
    execInterleaving cooldown ctxA ctxB sched p.1 p.2 rb
  | false :: sched, st, ra, rb =>
    let p := stepReq cooldown ctxB st rb
    execInterleaving cooldown ctxA ctxB sched p.1 ra p.2

/-- The request has not yet executed its admission operation. -/
def admitPending (r : ReqRun) : Prop := ReqOp.admission ∈ r.pending

/-- Every row of the given agent is still inside the cooldown window for a
request timestamped `n`: the conditional update of that request can match no
row. -/
def lockedFor (agents : List Agent) (agentId : String) (cooldown n : Int) : Prop :=
  ∀ a ∈ agents, a.id = agentId → ¬(a.last_pixel_at < n - cooldown)

/-- Some row of the agent is eligible with respect to both request
timestamps (e.g. the agent's last write lies more than one cooldown before
both). -/
def eligBoth (agents : List Agent) (agentId : String) (cooldown nA nB : Int) : Prop :=
  ∃ a ∈ agents, a.id = agentId ∧ a.last_pixel_at < nA - cooldown ∧
    a.last_pixel_at < nB - cooldown

/-- The induction invariant of two interleaved placement requests by the
same agent (A timestamped `nA`, B timestamped `nB`): ids stay unique, each
request holds at most one pending admission, an admitted request has no
admission pending, an admitted request leaves the agent locked for the
other's timestamp while the other's admission is still pending, and the two
requests are never both admitted. -/
structure InterleaveInv (cooldown : Int) (agentId : String) (nA nB : Int)
    (st : ServerState) (ra rb : ReqRun) : Prop where
  uniq : uniqueIds st.agents
  countA : ra.pending.count ReqOp.admission ≤ 1
  countB : rb.pending.count ReqOp.admission ≤ 1
  flagA : ra.admitted = true → ¬admitPending ra
  flagB : rb.admitted = true → ¬admitPending rb
  lockA : ra.admitted = true → admitPending rb → lockedFor st.agents agentId cooldown nB
  lockB : rb.admitted = true → admitPending ra → lockedFor st.agents agentId cooldown nA
  notBoth : ¬(ra.admitted = true ∧ rb.admitted = true)

/-- Progress: either both admissions are still pending with the agent
eligible for both timestamps, or some request has already been admitted. -/
def admitProgress (cooldown : Int) (agentId : String) (nA nB : Int)
    (st : ServerState) (ra rb : ReqRun) : Prop :=
  (admitPending ra ∧ admitPending rb ∧ eligBoth st.agents agentId cooldown nA nB)
  ∨ ra.admitted = true ∨ rb.admitted = true

/-- The agent projection embedded in the pixel GET response. -/
structure PixelAgentInfo where
  id : String
  name : String
  color : String
deriving Repr, DecidableEq

/-- The responses of the pixel GET endpoint (route.ts lines 203-243). -/
inductive PixelGetResponse where
  | invalidCoordinates (message : String)
  | notFound (x y : Int)
  | found (x y : Int) (color : String) (placedAt : Int) (agent : Option PixelAgentInfo)
deriving Repr, DecidableEq

/-- The GET handler of src/app/api/pixel/route.ts.  `xq`/`yq` are the query
parameters after `parseInt` (`none` models `NaN`, i.e. a non-numeric
parameter).  The handler rejects only `NaN` inputs, then reads the store
directly. -/
def pixelGET (pixels : List Pixel) (agents : List Agent) (xq yq : Option Int) :
    PixelGetResponse :=
  match xq, yq with
  | some x, some y =>
    match dbOps.getPixel pixels x y with
    | none => .notFound x y
    | some p =>
      .found p.x p.y p.color p.placed_at
        ((dbOps.getAgentById agents p.agent_id).map
          (fun a => ⟨a.id, a.name, a.color⟩))
  | _, _ =>
    .invalidCoordinates "Both x and y query parameters are required and must be integers"

/-- One entry of the public agents listing (agents endpoint GET). -/
structure PublicAgentEntry where
  id : String
  name : String
  color : String
  pixelsPlaced : Nat
deriving Repr, DecidableEq

/-- The GET handler of the agents endpoint: `dbOps.getAllAgents` enriched
with per-agent pixel counts, plus the returned `count`. -/
def agentsGET (agents : List Agent) (pixels : List Pixel) :
    List PublicAgentEntry × Nat :=
  let safe := dbOps.getAllAgents agents
  (safe.map (fun a => ⟨a.id, a.name, a.color, agentPixelCount pixels a.id⟩),
   safe.length)

/-- Rewrite every agent's stored credential by an arbitrary function; used to
state that the public exports do not depend on credentials. -/
def withTokens (f : Agent → String) (agents : List Agent) : List Agent :=
  agents.map (fun a => { a with token := f a })

/-- A well-formed 64-hex-character test token. -/
def tokW : String := String.mk (List.replicate 64 'a')

/-- A registered test agent that has never placed a pixel. -/
def agentW : Agent :=
  { id := "a1", name := "TestAgent", token := tokW, color := "#E50000",
    created_at := 0, last_pixel_at := 0 }

/-- A server state holding only `agentW`, empty grid, cache not loaded. -/
def stW : ServerState :=
  { agents := [agentW], pixels := [], pixel_history := [], cache := none }

/-- A well-formed placement request for `(5, 5)` with no color field. -/
def reqW : PostRequest :=
  { authHeader := some ("Bearer " ++ tokW),
    body := some { x := JVal.n 5, y := JVal.n 5, color := JVal.undef } }

/-- The non-integer rational 3/2, built in reduced form so that it evaluates
inside the kernel. -/
def qNonIntW : ℚ := ⟨3, 2, by decide, by decide⟩

/-- A placement request whose x coordinate is the non-integer number 1.5. -/
def reqNonIntW : PostRequest :=
  { authHeader := some ("Bearer " ++ tokW),
    body := some { x := JVal.n qNonIntW, y := JVal.n 5, color := JVal.undef } }

/-- A placement request supplying the empty string as its color. -/
def reqEmptyColorW : PostRequest :=
  { authHeader := some ("Bearer " ++ tokW),
    body := some { x := JVal.n 5, y := JVal.n 5, color := JVal.s "" } }

/-- A placement request supplying a color that is not in the palette. -/
def reqBadColorW : PostRequest :=
  { authHeader := some ("Bearer " ++ tokW),
    body := some { x := JVal.n 5, y := JVal.n 5, color := JVal.s "red" } }

/-- A server state whose canvas cache has completed its initial load (and is
empty, matching the empty pixels table). -/
def stLoadedW : ServerState :=
  { agents := [agentW], pixels := [], pixel_history := [], cache := some [] }

/-- A broadcaster state with two live connections from the same origin. -/
def broadcasterW : BroadcasterState :=
  { clients := [("c1", ⟨"o1", 0⟩), ("c2", ⟨"o1", 0⟩)],
    connectionsPerIP := [("o1", 2)] }

/-- Request context A for the concurrency witness. -/
def ctxAW : ReqCtx := { agentId := "a1", now := 1000, x := 1, y := 1, color := "#E50000" }

/-- Request context B for the concurrency witness. -/
def ctxBW : ReqCtx := { agentId := "a1", now := 1500, x := 2, y := 2, color := "#02BE01" }

/-- Initial state for the concurrency witness: the agent last wrote long ago,
so both requests start eligible. -/
def stEligW : ServerState :=
  { agents := [{ agentW with last_pixel_at := -100000 }],
    pixels := [], pixel_history := [], cache := none }

/-- A pixels table holding one cell far outside the 0-999 canvas range. -/
def outOfRangePixelsW : List Pixel := [⟨5000, -3, "#222222", "a1", 10⟩]

/-! ## Basic lemmas about the store operations -/

theorem eligibleRow_iff (agentId : String) (cutoff : Int) (a : Agent) :
    eligibleRow agentId cutoff a = true ↔ a.id = agentId ∧ a.last_pixel_at < cutoff := by
  simp [eligibleRow]

theorem apx_isSome_iff (agents : List Agent) (agentId : String) (cd now : Int) :
    (dbOps.atomicPlacePixel agents agentId cd now).1.isSome = true ↔
      ∃ a ∈ agents, a.id = agentId ∧ a.last_pixel_at < now - cd := by
  simp only [dbOps.atomicPlacePixel, List.head?_isSome, ne_eq, List.map_eq_nil_iff,
    List.filter_eq_nil_iff, eligibleRow_iff]
  push_neg
  constructor
  · rintro ⟨a, ha, h1, h2⟩
    exact ⟨a, ha, h1, h2⟩
  · rintro ⟨a, ha, h1, h2⟩
    exact ⟨a, ha, h1, h2⟩

theorem eligibleRow_eq_false_iff (agentId : String) (cutoff : Int) (a : Agent) :
    eligibleRow agentId cutoff a = false ↔
      ¬(a.id = agentId ∧ a.last_pixel_at < cutoff) := by
  rw [← Bool.not_eq_true, not_iff_not, eligibleRow_iff]

theorem apx_none_iff (agents : List Agent) (agentId : String) (cd now : Int) :
    (dbOps.atomicPlacePixel agents agentId cd now).1 = none ↔
      ∀ a ∈ agents, a.id = agentId → now - cd ≤ a.last_pixel_at := by
  rw [← Option.not_isSome_iff_eq_none]
  simp only [apx_isSome_iff]
  push_neg
  rfl

theorem apx_none_agents (agents : List Agent) (agentId : String) (cd now : Int)
    (h : (dbOps.atomicPlacePixel agents agentId cd now).1 = none) :
    (dbOps.atomicPlacePixel agents agentId cd now).2 = agents := by
  have hall := (apx_none_iff agents agentId cd now).mp h
  show agents.map _ = agents
  have : ∀ a ∈ agents,
      (if eligibleRow agentId (now - cd) a then setLastPixelAt a now else a) = a := by
    intro a ha
    have : eligibleRow agentId (now - cd) a = false := by
      rw [eligibleRow_eq_false_iff]
      rintro ⟨h1, h2⟩
      exact absurd h2 (not_lt.mpr (hall a ha h1))
    simp [this]
  calc agents.map (fun a => if eligibleRow agentId (now - cd) a then setLastPixelAt a now else a)
      = agents.map id := List.map_congr_left (by simpa using this)
    _ = agents := List.map_id agents

theorem uniqueIds_eq_of_mem {agents : List Agent} (h : uniqueIds agents)
    {a b : Agent} (ha : a ∈ agents) (hb : b ∈ agents) (hid : a.id = b.id) : a = b := by
  by_contra hne
  exact (List.Pairwise.forall (fun x y hxy => (Ne.symm hxy)) h ha hb hne) hid

theorem apx_ids (agents : List Agent) (agentId : String) (cd now : Int) :
    (dbOps.atomicPlacePixel agents agentId cd now).2.map Agent.id = agents.map Agent.id := by
  show (agents.map _).map Agent.id = _
  rw [List.map_map]
  apply List.map_congr_left
  intro a _
  by_cases h : eligibleRow agentId (now - cd) a = true <;> simp [h, setLastPixelAt]

theorem uniqueIds_map_of_id_preserving {agents : List Agent} (f : Agent → Agent)
    (hf : ∀ a, (f a).id = a.id) (h : uniqueIds agents) : uniqueIds (agents.map f) := by
  unfold uniqueIds at *
  rw [List.pairwise_map]
  exact h.imp (by intro a b hab; simpa [hf] using hab)

theorem apx_uniqueIds (agents : List Agent) (agentId : String) (cd now : Int)
    (h : uniqueIds agents) :
    uniqueIds (dbOps.atomicPlacePixel agents agentId cd now).2 := by
  apply uniqueIds_map_of_id_preserving _ _ h
  intro a
  by_cases hc : eligibleRow agentId (now - cd) a = true <;> simp [hc, setLastPixelAt]

theorem apx_some_agents (agents : List Agent) (agentId : String) (cd now : Int)
    (hU : uniqueIds agents)
    (h : (dbOps.atomicPlacePixel agents agentId cd now).1.isSome = true) :
    (dbOps.atomicPlacePixel agents agentId cd now).2 =
      agents.map (fun a => if a.id = agentId then setLastPixelAt a now else a) := by
  obtain ⟨e, he, heid, helast⟩ := (apx_isSome_iff agents agentId cd now).mp h
  show agents.map _ = _
  apply List.map_congr_left
  intro a ha
  by_cases hid : a.id = agentId
  · have : a = e := uniqueIds_eq_of_mem hU ha he (hid.trans heid.symm)
    subst this
    have : eligibleRow agentId (now - cd) a = true :=
      (eligibleRow_iff _ _ _).mpr ⟨hid, helast⟩
    simp [this, hid]
  · have : eligibleRow agentId (now - cd) a = false := by
      rw [eligibleRow_eq_false_iff]
      rintro ⟨h1, _⟩
      exact hid h1
    simp [this, hid]

theorem getPixel_upsert (pixels : List Pixel) (x y : Int) (c aid : String) (t : Int) :
    dbOps.getPixel (upsertPixel pixels x y c aid t) x y = some ⟨x, y, c, aid, t⟩ := by
  simp [dbOps.getPixel, upsertPixel, List.find?_cons, pixelKeyEq]

theorem getAgentByToken_token {agents : List Agent} {t : String} {a : Agent}
    (h : dbOps.getAgentByToken agents t = some a) : a.token = t := by
  have := List.find?_some h
  simpa [beq_iff_eq] using this

theorem getAgentByToken_mem {agents : List Agent} {t : String} {a : Agent}
    (h : dbOps.getAgentByToken agents t = some a) : a ∈ agents :=
  List.mem_of_find?_eq_some h

/-! ### Stage-reduction lemmas for placePOST -/

theorem placePOST_of_invalidJson {st : ServerState} {req : PostRequest} {now : Int}
    (h : req.body = none) :
    placePOST st req now = (.invalidJson, st, none) := by
  simp [placePOST, h]

theorem placePOST_of_missingAuth {st : ServerState} {req : PostRequest} {now : Int}
    {body : PostBody} (hb : req.body = some body)
    (h : bearerToken req.authHeader = none) :
    placePOST st req now = (.missingAuthorization, st, none) := by
  simp [placePOST, hb, h]

theorem placePOST_of_badTokenFormat {st : ServerState} {req : PostRequest} {now : Int}
    {body : PostBody} (hb : req.body = some body)
    {tok : String} (ht : bearerToken req.authHeader = some tok)
    (hx : isHexToken tok = false) :
    placePOST st req now = (.invalidTokenFormat, st, none) := by
  simp [placePOST, hb, ht, hx]

theorem placePOST_of_unknownToken {st : ServerState} {req : PostRequest} {now : Int}
    {body : PostBody} (hb : req.body = some body)
    {tok : String} (ht : bearerToken req.authHeader = some tok)
    (hx : isHexToken tok = true)
    (hag : dbOps.getAgentByToken st.agents tok = none) :
    placePOST st req now = (.invalidToken, st, none) := by
  simp [placePOST, hb, ht, hx, hag]

theorem placePOST_of_invalidCoords {st : ServerState} {req : PostRequest} {now : Int}
    {body : PostBody} (hb : req.body = some body)
    {tok : String} (ht : bearerToken req.authHeader = some tok)
    (hx : isHexToken tok = true)
    {agent : Agent} (hag : dbOps.getAgentByToken st.agents tok = some agent)
    (hcv : (validateCoordinates body.x body.y).valid = false) :
    placePOST st req now =
      (.invalidCoordinates ((validateCoordinates body.x body.y).error.getD "")
        MAX_COORDINATE, st, none) := by
  have htok := getAgentByToken_token hag
  simp [placePOST, hb, ht, hx, hag, hcv, secureCompare, htok]

theorem placePOST_of_nonStringColor {st : ServerState} {req : PostRequest} {now : Int}
    {body : PostBody} (hb : req.body = some body)
    {tok : String} (ht : bearerToken req.authHeader = some tok)
    (hx : isHexToken tok = true)
    {agent : Agent} (hag : dbOps.getAgentByToken st.agents tok = some agent)
    (hcv : (validateCoordinates body.x body.y).valid = true)
    (hcol : ∀ c : String, (if jsFalsy body.color then JVal.s agent.color else body.color) ≠ JVal.s c) :
    placePOST st req now = (.serverError, st, none) := by
  have htok := getAgentByToken_token hag
  rcases hv : (if jsFalsy body.color then JVal.s agent.color else body.color) with
    c | q | bv | vs | _ | _
  · exact absurd hv (hcol c)
  all_goals simp [placePOST, hb, ht, hx, hag, hcv, secureCompare, htok, hv]

theorem placePOST_of_invalidColor {st : ServerState} {req : PostRequest} {now : Int}
    {body : PostBody} (hb : req.body = some body)
    {tok : String} (ht : bearerToken req.authHeader = some tok)
    (hx : isHexToken tok = true)
    {agent : Agent} (hag : dbOps.getAgentByToken st.agents tok = some agent)
    (hcv : (validateCoordinates body.x body.y).valid = true)
    {c : String}
    (hcol : (if jsFalsy body.color then JVal.s agent.color else body.color) = JVal.s c)
    (hpal : (validateColor (strToUpper c)).valid = false) :
    placePOST st req now =
      (.invalidColor ((validateColor (strToUpper c)).error.getD "") COLOR_PALETTE, st, none) := by
  have htok := getAgentByToken_token hag
  simp [placePOST, hb, ht, hx, hag, hcv, secureCompare, htok, hcol, hpal]

theorem placePOST_of_rateLimited {st : ServerState} {req : PostRequest} {now : Int}
    {body : PostBody} (hb : req.body = some body)
    {tok : String} (ht : bearerToken req.authHeader = some tok)
    (hx : isHexToken tok = true)
    {agent : Agent} (hag : dbOps.getAgentByToken st.agents tok = some agent)
    (hcv : (validateCoordinates body.x body.y).valid = true)
    {c : String}
    (hcol : (if jsFalsy body.color then JVal.s agent.color else body.color) = JVal.s c)
    (hpal : (validateColor (strToUpper c)).valid = true)
    {ags : List Agent}
    (hapx : dbOps.atomicPlacePixel st.agents agent.id RATE_LIMIT_MS now = (none, ags)) :
    placePOST st req now =
      (.rateLimited (getTimeUntilNextPixel ags agent.id now)
         (now + getTimeUntilNextPixel ags agent.id now) RATE_LIMIT_MS,
       { st with agents := ags }, none) := by
  have htok := getAgentByToken_token hag
  simp [placePOST, hb, ht, hx, hag, hcv, secureCompare, htok, hcol, hpal, hapx]

theorem placePOST_of_admitted {st : ServerState} {req : PostRequest} {now : Int}
    {body : PostBody} (hb : req.body = some body)
    {tok : String} (ht : bearerToken req.authHeader = some tok)
    (hx : isHexToken tok = true)
    {agent : Agent} (hag : dbOps.getAgentByToken st.agents tok = some agent)
    (hcv : (validateCoordinates body.x body.y).valid = true)
    {c : String}
    (hcol : (if jsFalsy body.color then JVal.s agent.color else body.color) = JVal.s c)
    (hpal : (validateColor (strToUpper c)).valid = true)
    {r : Agent} {ags : List Agent}
    (hapx : dbOps.atomicPlacePixel st.agents agent.id RATE_LIMIT_MS now = (some r, ags)) :
    placePOST st req now =
      (.success (jsAsInt body.x) (jsAsInt body.y) (strToUpper (strToUpper c)) agent.id agent.name
         (dbOps.getPixel st.pixels (jsAsInt body.x) (jsAsInt body.y)).isSome
         (Option.map Pixel.agent_id (dbOps.getPixel st.pixels (jsAsInt body.x) (jsAsInt body.y)))
         (now + RATE_LIMIT_MS),
       { st with agents := ags,
                 pixels := upsertPixel st.pixels (jsAsInt body.x) (jsAsInt body.y)
                   (strToUpper (strToUpper c)) agent.id now,
                 pixel_history := st.pixel_history ++
                   [⟨jsAsInt body.x, jsAsInt body.y, strToUpper (strToUpper c), agent.id, now⟩] },
       some ⟨jsAsInt body.x, jsAsInt body.y, strToUpper (strToUpper c), agent.id, agent.name,
             (dbOps.getPixel st.pixels (jsAsInt body.x) (jsAsInt body.y)).isSome,
             Option.map Pixel.agent_id (dbOps.getPixel st.pixels (jsAsInt body.x) (jsAsInt body.y)),
             now⟩) := by
  have htok := getAgentByToken_token hag
  simp [placePOST, hb, ht, hx, hag, hcv, secureCompare, htok, hcol, hpal, hapx,
    dbOps.placePixel]

/-- C5: for every placement request that is rejected (any non-success
response: invalid JSON, missing/invalid credential, invalid coordinates,
invalid color, rate-limited, or the internal-error path), no cell in the
grid is created or modified, and no history row is appended: the pixels
table after the request equals the pixels table before it. -/
theorem placePOST_rejection_preserves_grid
    (st : ServerState) (req : PostRequest) (now : Int)
    (hr : (placePOST st req now).1.isSuccess = false) :
    (placePOST st req now).2.1.pixels = st.pixels ∧
      (placePOST st req now).2.1.pixel_history = st.pixel_history := by
  rcases hb : req.body with _ | body
  · rw [placePOST_of_invalidJson hb]; exact ⟨rfl, rfl⟩
  rcases ht : bearerToken req.authHeader with _ | tok
  · rw [placePOST_of_missingAuth hb ht]; exact ⟨rfl, rfl⟩
  rcases hx : isHexToken tok with _ | _
  · rw [placePOST_of_badTokenFormat hb ht hx]; exact ⟨rfl, rfl⟩
  rcases hag : dbOps.getAgentByToken st.agents tok with _ | agent
  · rw [placePOST_of_unknownToken hb ht hx hag]; exact ⟨rfl, rfl⟩
  rcases hcv : (validateCoordinates body.x body.y).valid with _ | _
  · rw [placePOST_of_invalidCoords hb ht hx hag hcv]; exact ⟨rfl, rfl⟩
  by_cases hstr : ∃ c : String,
      (if jsFalsy body.color then JVal.s agent.color else body.color) = JVal.s c
  · obtain ⟨c, hcol⟩ := hstr
    rcases hpal : (validateColor (strToUpper c)).valid with _ | _
    · rw [placePOST_of_invalidColor hb ht hx hag hcv hcol hpal]; exact ⟨rfl, rfl⟩
    rcases hapx : dbOps.atomicPlacePixel st.agents agent.id RATE_LIMIT_MS now with ⟨ret, ags⟩
    rcases ret with _ | r
    · rw [placePOST_of_rateLimited hb ht hx hag hcv hcol hpal hapx]; exact ⟨rfl, rfl⟩
    · rw [placePOST_of_admitted hb ht hx hag hcv hcol hpal hapx] at hr
      simp [PostResponse.isSuccess] at hr
  · push_neg at hstr
    rw [placePOST_of_nonStringColor hb ht hx hag hcv hstr]; exact ⟨rfl, rfl⟩


/-- Witness for C5: at `now = 4000` the fresh test agent is still rate
limited (the conditional update needs `last_pixel_at < now - 7000`), the
request is rejected, and the grid is unchanged. -/
theorem placePOST_rejection_preserves_grid_witness :
    (placePOST stW reqW 4000).1.isSuccess = false ∧
      (placePOST stW reqW 4000).2.1.pixels = stW.pixels :=
  ⟨by decide, (placePOST_rejection_preserves_grid stW reqW 4000 (by decide)).1⟩

theorem getAgentById_of_mem {agents : List Agent} (hU : uniqueIds agents)
    {a : Agent} (ha : a ∈ agents) :
    dbOps.getAgentById agents a.id = some a := by
  rcases hf : dbOps.getAgentById agents a.id with _ | b
  · exfalso
    have := List.find?_eq_none.mp hf a ha
    simp at this
  · have hbmem := List.mem_of_find?_eq_some hf
    have hbid : b.id = a.id := by simpa using List.find?_some hf
    rw [uniqueIds_eq_of_mem hU hbmem ha hbid]

/-- C1 counterexample: with cooldown 7000 and `last_pixel_at = 0`, a request
at `now = 7000` satisfies the claimed admission condition
`now - last_write_at >= cooldown_duration`, yet the conditional update
(`last_pixel_at < now - cooldown` is strict) matches no row and the request
is rejected with RateLimited. -/
theorem cooldown_boundary_rejected :
    7000 - agentW.last_pixel_at ≥ RATE_LIMIT_MS ∧
    (dbOps.atomicPlacePixel stW.agents agentW.id RATE_LIMIT_MS 7000).1 = none ∧
    (placePOST stW reqW 7000).1 = PostResponse.rateLimited 0 7000 RATE_LIMIT_MS := by
  refine ⟨by decide, by decide, by decide⟩

/-- C1 (amended): for a placement request that reaches the admission stage
(valid body, credential, coordinates and color), the cooldown admission
succeeds exactly when `now - last_pixel_at > RATE_LIMIT_MS` (strictly
greater: the single conditional update requires `last_pixel_at < now -
cooldown`); on success the same conditional update sets the agent's
`last_pixel_at = now`; otherwise the request fails with RateLimited carrying
`max 0 (RATE_LIMIT_MS - (now - last_pixel_at))` and the state is unchanged.
For an agent id not present in the directory the conditional update matches
nothing and the carried wait time is 0. -/
theorem placePOST_cooldown_admission
    (st : ServerState) (req : PostRequest) (now : Int)
    (hU : uniqueIds st.agents)
    {body : PostBody} (hb : req.body = some body)
    {tok : String} (ht : bearerToken req.authHeader = some tok)
    (hx : isHexToken tok = true)
    {agent : Agent} (hag : dbOps.getAgentByToken st.agents tok = some agent)
    (hcv : (validateCoordinates body.x body.y).valid = true)
    {c : String}
    (hcol : (if jsFalsy body.color then JVal.s agent.color else body.color) = JVal.s c)
    (hpal : (validateColor (strToUpper c)).valid = true) :
    ((placePOST st req now).1.isSuccess = true ↔
        now - agent.last_pixel_at > RATE_LIMIT_MS)
    ∧ (now - agent.last_pixel_at > RATE_LIMIT_MS →
        (placePOST st req now).2.1.agents =
          st.agents.map (fun a => if a.id = agent.id then setLastPixelAt a now else a))
    ∧ (¬(now - agent.last_pixel_at > RATE_LIMIT_MS) →
        placePOST st req now =
          (.rateLimited (max 0 (RATE_LIMIT_MS - (now - agent.last_pixel_at)))
             (now + max 0 (RATE_LIMIT_MS - (now - agent.last_pixel_at))) RATE_LIMIT_MS,
           st, none))
    ∧ (∀ id2 : String, (∀ a ∈ st.agents, a.id ≠ id2) →
        (dbOps.atomicPlacePixel st.agents id2 RATE_LIMIT_MS now).1 = none ∧
          getTimeUntilNextPixel st.agents id2 now = 0) := by
  have hmem : agent ∈ st.agents := getAgentByToken_mem hag
  have hiff : (dbOps.atomicPlacePixel st.agents agent.id RATE_LIMIT_MS now).1.isSome = true ↔
      now - agent.last_pixel_at > RATE_LIMIT_MS := by
    rw [apx_isSome_iff]
    constructor
    · rintro ⟨a, ha, haid, halast⟩
      have : a = agent := uniqueIds_eq_of_mem hU ha hmem haid
      subst this
      omega
    · intro h
      exact ⟨agent, hmem, rfl, by omega⟩
  by_cases hcond : now - agent.last_pixel_at > RATE_LIMIT_MS
  · have hsome : (dbOps.atomicPlacePixel st.agents agent.id RATE_LIMIT_MS now).1.isSome = true :=
      hiff.mpr hcond
    obtain ⟨r, hr⟩ := Option.isSome_iff_exists.mp hsome
    have hpair : dbOps.atomicPlacePixel st.agents agent.id RATE_LIMIT_MS now =
        (some r, (dbOps.atomicPlacePixel st.agents agent.id RATE_LIMIT_MS now).2) := by
      rw [← hr]
    have hred := placePOST_of_admitted hb ht hx hag hcv hcol hpal hpair
    refine ⟨?_, ?_, ?_, ?_⟩
    · rw [hred]
      simp [PostResponse.isSuccess, hcond]
    · intro _
      rw [hred]
      exact apx_some_agents st.agents agent.id RATE_LIMIT_MS now hU hsome
    · intro hc
      exact absurd hcond hc
    · intro id2 hid2
      constructor
      · rw [apx_none_iff]
        intro a ha haid
        exact absurd haid (hid2 a ha)
      · unfold getTimeUntilNextPixel
        have : dbOps.getAgentById st.agents id2 = none := by
          rw [show dbOps.getAgentById st.agents id2 = st.agents.find? (fun a => a.id == id2) from rfl,
            List.find?_eq_none]
          intro a ha
          simpa using hid2 a ha
        rw [this]
  · have hnone : (dbOps.atomicPlacePixel st.agents agent.id RATE_LIMIT_MS now).1 = none := by
      rw [← Option.not_isSome_iff_eq_none]
      intro hs
      exact hcond (hiff.mp hs)
    have hags := apx_none_agents st.agents agent.id RATE_LIMIT_MS now hnone
    have hpair : dbOps.atomicPlacePixel st.agents agent.id RATE_LIMIT_MS now =
        (none, st.agents) := by
      rw [Prod.ext_iff]
      exact ⟨hnone, hags⟩
    have hred := placePOST_of_rateLimited hb ht hx hag hcv hcol hpal hpair
    have hwait : getTimeUntilNextPixel st.agents agent.id now =
        max 0 (RATE_LIMIT_MS - (now - agent.last_pixel_at)) := by
      unfold getTimeUntilNextPixel
      rw [getAgentById_of_mem hU hmem]
    refine ⟨?_, ?_, ?_, ?_⟩
    · rw [hred]
      constructor
      · intro hs
        simp [PostResponse.isSuccess] at hs
      · intro h
        exact absurd h hcond
    · intro h
      exact absurd h hcond
    · intro _
      rw [hred, hwait]
    · intro id2 hid2
      constructor
      · rw [apx_none_iff]
        intro a ha haid
        exact absurd haid (hid2 a ha)
      · unfold getTimeUntilNextPixel
        have : dbOps.getAgentById st.agents id2 = none := by
          rw [show dbOps.getAgentById st.agents id2 = st.agents.find? (fun a => a.id == id2) from rfl,
            List.find?_eq_none]
          intro a ha
          simpa using hid2 a ha
        rw [this]

/-- Witness for C1's amended theorem: at `now = 8000` (strictly more than
7000 ms after `last_pixel_at = 0`) the admission succeeds. -/
theorem placePOST_cooldown_admission_witness :
    8000 - agentW.last_pixel_at > RATE_LIMIT_MS ∧
      (placePOST stW reqW 8000).1.isSuccess = true := by
  have h := placePOST_cooldown_admission stW reqW 8000
    (List.pairwise_singleton _ _) rfl rfl (by decide) rfl (by decide) rfl (by decide)
  exact ⟨by decide, h.1.mpr (by decide)⟩

/-- C3: every successful placement at `(x, y)` is immediately visible to a
subsequent read: the stored cell carries exactly the committed color, writer
id and commit timestamp (the upsert makes the latest committed write
authoritative); and the response and the broadcast event carry
`wasOverride = true` exactly when a cell already existed at `(x, y)` before
the commit, with `previousAgentId` equal to that cell's writer. -/
theorem placePOST_round_trip
    (st : ServerState) (req : PostRequest) (now : Int)
    {x y : Int} {col aid an : String} {wov : Bool} {prev : Option String} {nxt : Int}
    (h : (placePOST st req now).1 = PostResponse.success x y col aid an wov prev nxt) :
    dbOps.getPixel (placePOST st req now).2.1.pixels x y = some ⟨x, y, col, aid, now⟩
    ∧ (wov = true ↔ (dbOps.getPixel st.pixels x y).isSome = true)
    ∧ prev = Option.map Pixel.agent_id (dbOps.getPixel st.pixels x y)
    ∧ (placePOST st req now).2.2 = some ⟨x, y, col, aid, an, wov, prev, now⟩ := by
  rcases hb : req.body with _ | body
  · rw [placePOST_of_invalidJson hb] at h; simp at h
  rcases ht : bearerToken req.authHeader with _ | tok
  · rw [placePOST_of_missingAuth hb ht] at h; simp at h
  rcases hx : isHexToken tok with _ | _
  · rw [placePOST_of_badTokenFormat hb ht hx] at h; simp at h
  rcases hag : dbOps.getAgentByToken st.agents tok with _ | agent
  · rw [placePOST_of_unknownToken hb ht hx hag] at h; simp at h
  rcases hcv : (validateCoordinates body.x body.y).valid with _ | _
  · rw [placePOST_of_invalidCoords hb ht hx hag hcv] at h; simp at h
  by_cases hstr : ∃ c : String,
      (if jsFalsy body.color then JVal.s agent.color else body.color) = JVal.s c
  · obtain ⟨c, hcol⟩ := hstr
    rcases hpal : (validateColor (strToUpper c)).valid with _ | _
    · rw [placePOST_of_invalidColor hb ht hx hag hcv hcol hpal] at h; simp at h
    rcases hapx : dbOps.atomicPlacePixel st.agents agent.id RATE_LIMIT_MS now with ⟨ret, ags⟩
    rcases ret with _ | r
    · rw [placePOST_of_rateLimited hb ht hx hag hcv hcol hpal hapx] at h; simp at h
    · have hred := placePOST_of_admitted hb ht hx hag hcv hcol hpal hapx
      rw [hred] at h
      simp only [PostResponse.success.injEq] at h
      obtain ⟨rfl, rfl, rfl, rfl, rfl, rfl, rfl, rfl⟩ := h
      rw [hred]
      exact ⟨getPixel_upsert _ _ _ _ _ _, Iff.rfl, rfl, rfl⟩
  · push_neg at hstr
    rw [placePOST_of_nonStringColor hb ht hx hag hcv hstr] at h; simp at h

/-- Witness for C3: the concrete successful placement at `(5, 5)` reads back
as the committed cell, with `wasOverride = false` on the empty grid. -/
theorem placePOST_round_trip_witness :
    (placePOST stW reqW 8000).1 =
        PostResponse.success 5 5 "#E50000" "a1" "TestAgent" false none 15000 ∧
      dbOps.getPixel (placePOST stW reqW 8000).2.1.pixels 5 5 =
        some ⟨5, 5, "#E50000", "a1", 8000⟩ :=
  ⟨by decide,
   (@placePOST_round_trip stW reqW 8000 5 5 "#E50000" "a1" "TestAgent" false none
      15000 (by decide)).1⟩

theorem insertByCreatedDesc_withTokens (f : Agent → String) (a : Agent)
    (l : List Agent) :
    insertByCreatedDesc { a with token := f a } (l.map (fun b => { b with token := f b })) =
      (insertByCreatedDesc a l).map (fun b => { b with token := f b }) := by
  induction l with
  | nil => simp [insertByCreatedDesc]
  | cons b rest ih =>
    simp only [List.map_cons, insertByCreatedDesc]
    by_cases hc : b.created_at ≥ a.created_at
    · simp [hc, ih]
    · simp [hc]

theorem orderByCreatedDesc_withTokens (f : Agent → String) (l : List Agent) :
    orderByCreatedDesc (withTokens f l) =
      (orderByCreatedDesc l).map (fun b => { b with token := f b }) := by
  induction l with
  | nil => simp [withTokens, orderByCreatedDesc]
  | cons a rest ih =>
    simp only [withTokens, List.map_cons, orderByCreatedDesc] at *
    rw [ih, insertByCreatedDesc_withTokens]

/-- C4: credential secrecy of the bulk agent exports.  Rewriting every
agent's stored token by an arbitrary function leaves both the directory
listing (`dbOps.getAllAgents`, which selects only id, name, color and
created_at) and the public agents endpoint output unchanged: no part of
either export depends on any credential, for any directory state and any
grid state. -/
theorem agents_export_token_secrecy (agents : List Agent) (pixels : List Pixel)
    (f : Agent → String) :
    dbOps.getAllAgents (withTokens f agents) = dbOps.getAllAgents agents
    ∧ agentsGET (withTokens f agents) pixels = agentsGET agents pixels := by
  have hsafe : dbOps.getAllAgents (withTokens f agents) = dbOps.getAllAgents agents := by
    unfold dbOps.getAllAgents
    rw [orderByCreatedDesc_withTokens, List.map_map]
    apply List.map_congr_left
    intro a _
    simp [toSafeAgent]
  exact ⟨hsafe, by unfold agentsGET; rw [hsafe]⟩


theorem intCoordRange_iff (q : ℚ) :
    (∃ a : Int, q = (a : ℚ) ∧ 0 ≤ a ∧ a ≤ 999) ↔
      (q.den = 1 ∧ 0 ≤ q ∧ q ≤ 999) := by
  constructor
  · rintro ⟨a, rfl, h0, h1⟩
    exact ⟨Rat.den_intCast a, by exact_mod_cast h0, by exact_mod_cast h1⟩
  · rintro ⟨hd, h0, h1⟩
    have hq : (q.num : ℚ) = q := (Rat.den_eq_one_iff q).mp hd
    refine ⟨q.num, hq.symm, ?_, ?_⟩
    · have : (0 : ℚ) ≤ (q.num : ℚ) := by rw [hq]; exact h0
      exact_mod_cast this
    · have : (q.num : ℚ) ≤ 999 := by rw [hq]; exact h1
      exact_mod_cast this

theorem validateCoordinates_valid_iff (x y : JVal) :
    (validateCoordinates x y).valid = true ↔
      ((∃ a : Int, x = JVal.n (a : ℚ) ∧ 0 ≤ a ∧ a ≤ 999) ∧
       (∃ b : Int, y = JVal.n (b : ℚ) ∧ 0 ≤ b ∧ b ≤ 999)) := by
  have key : ∀ qx qy : ℚ, (validateCoordinates (JVal.n qx) (JVal.n qy)).valid = true ↔
      ((qx.den = 1 ∧ 0 ≤ qx ∧ qx ≤ 999) ∧ (qy.den = 1 ∧ 0 ≤ qy ∧ qy ≤ 999)) := by
    intro qx qy
    simp only [validateCoordinates]
    constructor
    · intro h
      split_ifs at h with h1 h2
      simp only [Bool.not_eq_true, Bool.not_eq_false'] at h1
      simp only [isIntegerNum, Bool.and_eq_true, beq_iff_eq] at h1
      simp only [Bool.not_eq_true, Bool.or_eq_false_iff, decide_eq_false_iff_not,
        MIN_COORDINATE, MAX_COORDINATE, not_lt, gt_iff_lt] at h2
      push_cast at h2
      exact ⟨⟨h1.1, h2.1.1.1, h2.1.1.2⟩, ⟨h1.2, h2.1.2, h2.2⟩⟩
    · rintro ⟨⟨hdx, hx0, hx1⟩, ⟨hdy, hy0, hy1⟩⟩
      have e1 : (!(isIntegerNum qx && isIntegerNum qy)) = false := by
        simp [isIntegerNum, hdx, hdy]
      have e2 : (decide (qx < (MIN_COORDINATE : ℚ)) || decide (qx > (MAX_COORDINATE : ℚ)) ||
          decide (qy < (MIN_COORDINATE : ℚ)) || decide (qy > (MAX_COORDINATE : ℚ))) = false := by
        simp only [MIN_COORDINATE, MAX_COORDINATE, Bool.or_eq_false_iff,
          decide_eq_false_iff_not, not_lt, gt_iff_lt]
        push_cast
        exact ⟨⟨⟨hx0, hx1⟩, hy0⟩, hy1⟩
      rw [if_neg (by simp [e1]), if_neg (by simp [e2])]
  rcases x with sx | qx | bx | vx | _ | _ <;> rcases y with sy | qy | by2 | vy | _ | _ <;>
    try (simp only [validateCoordinates]
         constructor
         · intro h; simp at h
         · rintro ⟨⟨a, ha, _⟩, ⟨b, hb, _⟩⟩
           simp_all)
  rw [key]
  simp only [JVal.n.injEq]
  constructor
  · rintro ⟨hx, hy⟩
    exact ⟨(intCoordRange_iff qx).mpr hx, (intCoordRange_iff qy).mpr hy⟩
  · rintro ⟨hx, hy⟩
    exact ⟨(intCoordRange_iff qx).mp hx, (intCoordRange_iff qy).mp hy⟩

/-- C6 (amended): a placement request's coordinates are accepted exactly when
both x and y are integer numbers within [0, 999]; any other x or y is
rejected with InvalidCoordinates, and the structured error response includes
the maximum coordinate (field `maxCoordinate` = 999).  (The minimum is not a
structured field of the response; it appears only inside the human-readable
message of the out-of-range case.) -/
theorem coordinate_validation_spec
    (st : ServerState) (req : PostRequest) (now : Int)
    {body : PostBody} (hb : req.body = some body)
    {tok : String} (ht : bearerToken req.authHeader = some tok)
    (hx : isHexToken tok = true)
    {agent : Agent} (hag : dbOps.getAgentByToken st.agents tok = some agent) :
    ((validateCoordinates body.x body.y).valid = true ↔
      ((∃ a : Int, body.x = JVal.n (a : ℚ) ∧ 0 ≤ a ∧ a ≤ 999) ∧
       (∃ b : Int, body.y = JVal.n (b : ℚ) ∧ 0 ≤ b ∧ b ≤ 999)))
    ∧ ((validateCoordinates body.x body.y).valid = false →
        placePOST st req now =
          (.invalidCoordinates ((validateCoordinates body.x body.y).error.getD "")
            MAX_COORDINATE, st, none)
        ∧ ("maxCoordinate", JVal.n (999 : ℚ)) ∈
            postResponseJson (placePOST st req now).1) := by
  refine ⟨validateCoordinates_valid_iff body.x body.y, ?_⟩
  intro hcv
  have hred := @placePOST_of_invalidCoords st req now body hb tok ht hx agent hag hcv
  refine ⟨hred, ?_⟩
  rw [hred]
  simp [postResponseJson, MAX_COORDINATE]

/-- C6 counterexample: the request with `x = 1.5` is rejected with
InvalidCoordinates, but its structured error response carries no minimum at
all — no field named `minCoordinate` and no field whose value is the number
0 — while the maximum 999 is present; so the response does not include both
ends of the valid range as the claim states. -/
theorem invalid_coordinates_response_lacks_minimum :
    (placePOST stW reqNonIntW 8000).1 =
      PostResponse.invalidCoordinates "x and y must be integers" 999
    ∧ (∀ kv ∈ postResponseJson (placePOST stW reqNonIntW 8000).1, kv.2 ≠ JVal.n 0)
    ∧ (∀ v, ("minCoordinate", v) ∉ postResponseJson (placePOST stW reqNonIntW 8000).1)
    ∧ ("maxCoordinate", JVal.n 999) ∈ postResponseJson (placePOST stW reqNonIntW 8000).1 := by
  refine ⟨by decide, by decide, ?_, by decide⟩
  intro v hv
  have h1 : (placePOST stW reqNonIntW 8000).1 =
      PostResponse.invalidCoordinates "x and y must be integers" 999 := by decide
  rw [h1] at hv
  simp [postResponseJson] at hv

/-- Witness for C6's amended theorem: the `x = 1.5` request is invalid, the
response is the InvalidCoordinates payload with `maxCoordinate = 999`. -/
theorem coordinate_validation_spec_witness :
    (validateCoordinates (JVal.n qNonIntW) (JVal.n 5)).valid = false ∧
      (placePOST stW reqNonIntW 8000).1 =
        PostResponse.invalidCoordinates "x and y must be integers" 999 := by
  refine ⟨by decide, ?_⟩
  have h := (coordinate_validation_spec stW reqNonIntW 8000 rfl rfl (by decide) rfl).2
    (by decide)
  rw [h.1]
  decide

theorem char_toNat_ofNat_of_valid {n : Nat} (h : n.isValidChar) :
    (Char.ofNat n).toNat = n := by
  rw [Char.ofNat, dif_pos h]
  rfl

theorem char_toUpper_idem (c : Char) : c.toUpper.toUpper = c.toUpper := by
  show Char.toUpper (Char.toUpper c) = Char.toUpper c
  unfold Char.toUpper
  by_cases h : (Char.toNat c ≥ 97 ∧ Char.toNat c ≤ 122)
  · rw [if_pos h]
    have hv : (Char.toNat c - 32).isValidChar := Or.inl (by omega)
    have ht : (Char.ofNat (Char.toNat c - 32)).toNat = Char.toNat c - 32 :=
      char_toNat_ofNat_of_valid hv
    rw [if_neg]
    rw [ht]
    omega
  · rw [if_neg h, if_neg h]

theorem strToUpper_idem (s : String) : strToUpper (strToUpper s) = strToUpper s := by
  simp [strToUpper, List.map_map, Function.comp_def, char_toUpper_idem]

theorem validateColor_invalid {s : String} (h : (validateColor s).valid = false) :
    validateColor s =
      ⟨false, some "Color must be from the 16-color palette", some COLOR_PALETTE⟩ := by
  by_cases hm : strToUpper s ∈ COLOR_PALETTE
  · exfalso
    have : (validateColor s).valid = true := by simp [validateColor, hm, List.elem_iff]
    rw [h] at this
    exact Bool.false_ne_true this
  · simp [validateColor, hm]

theorem validateColor_valid_iff (s : String) :
    (validateColor s).valid = true ↔ strToUpper s ∈ COLOR_PALETTE := by
  by_cases hm : strToUpper s ∈ COLOR_PALETTE <;> simp [validateColor, hm]

/-- C7 counterexample: the request supplying the empty string as its color is
accepted and committed with the agent's default color, although the supplied
color matches no member of the palette case-insensitively (the claim demands
that every supplied color be accepted only on a case-insensitive palette
match). -/
theorem empty_color_accepted_with_default :
    (placePOST stW reqEmptyColorW 8000).1 =
      PostResponse.success 5 5 "#E50000" "a1" "TestAgent" false none 15000
    ∧ (∀ p ∈ COLOR_PALETTE, strToUpper "" ≠ p) :=
  ⟨by decide, by decide⟩

/-- C7 (amended): for a placement request that has passed credential and
coordinate validation, the color is resolved as `color || agent.color`, so a
falsy supplied color — in particular the empty string — is treated as
omitted and the agent's default color is used; the resolved color `c` is
accepted exactly when its uppercasing is a member of the fixed 16-color
palette (palette members are uppercase, so this is the case-insensitive
match); a resolved color not in the palette is rejected with InvalidColor
and the error response carries the full palette; and a successful placement
commits exactly `strToUpper c`, which is a palette member. -/
theorem color_validation_spec
    (st : ServerState) (req : PostRequest) (now : Int)
    {body : PostBody} (hb : req.body = some body)
    {tok : String} (ht : bearerToken req.authHeader = some tok)
    (hx : isHexToken tok = true)
    {agent : Agent} (hag : dbOps.getAgentByToken st.agents tok = some agent)
    (hcv : (validateCoordinates body.x body.y).valid = true)
    {c : String}
    (hcol : (if jsFalsy body.color then JVal.s agent.color else body.color) = JVal.s c) :
    (jsFalsy body.color = true → c = agent.color)
    ∧ ((validateColor (strToUpper c)).valid = true ↔
        ∃ p ∈ COLOR_PALETTE, strToUpper c = p)
    ∧ ((validateColor (strToUpper c)).valid = false →
        placePOST st req now =
          (.invalidColor "Color must be from the 16-color palette" COLOR_PALETTE,
           st, none))
    ∧ (∀ x y col aid an wov prev nxt,
        (placePOST st req now).1 = PostResponse.success x y col aid an wov prev nxt →
          col = strToUpper c ∧ col ∈ COLOR_PALETTE) := by
  refine ⟨?_, ?_, ?_, ?_⟩
  · intro hf
    rw [if_pos hf] at hcol
    exact (JVal.s.injEq _ _).mp hcol.symm
  · rw [validateColor_valid_iff, strToUpper_idem]
    constructor
    · intro hmem
      exact ⟨strToUpper c, hmem, rfl⟩
    · rintro ⟨p, hp, rfl⟩
      exact hp
  · intro hinv
    have hred := @placePOST_of_invalidColor st req now body hb tok ht hx agent hag hcv
      c hcol hinv
    rw [hred, validateColor_invalid hinv]
    rfl
  · intro x y col aid an wov prev nxt hsucc
    rcases hpal : (validateColor (strToUpper c)).valid with _ | _
    · have hred := @placePOST_of_invalidColor st req now body hb tok ht hx agent hag hcv
        c hcol hpal
      rw [hred] at hsucc
      simp at hsucc
    rcases hapx : dbOps.atomicPlacePixel st.agents agent.id RATE_LIMIT_MS now with ⟨ret, ags⟩
    rcases ret with _ | r
    · have hred := @placePOST_of_rateLimited st req now body hb tok ht hx agent hag hcv
        c hcol hpal ags hapx
      rw [hred] at hsucc
      simp at hsucc
    · have hred := @placePOST_of_admitted st req now body hb tok ht hx agent hag hcv
        c hcol hpal r ags hapx
      rw [hred] at hsucc
      simp only [PostResponse.success.injEq] at hsucc
      obtain ⟨-, -, hcolEq, -, -, -, -, -⟩ := hsucc
      have hmem : strToUpper c ∈ COLOR_PALETTE := by
        have := (validateColor_valid_iff (strToUpper c)).mp hpal
        rwa [strToUpper_idem] at this
      rw [← hcolEq, strToUpper_idem]
      exact ⟨rfl, hmem⟩

/-- Witness for C7's amended theorem: the supplied color "red" is not in the
palette, and the request is rejected with InvalidColor carrying the full
palette. -/
theorem color_validation_spec_witness :
    (validateColor (strToUpper "red")).valid = false ∧
      placePOST stW reqBadColorW 8000 =
        (PostResponse.invalidColor "Color must be from the 16-color palette"
          COLOR_PALETTE, stW, none) := by
  refine ⟨by decide, ?_⟩
  exact (color_validation_spec stW reqBadColorW 8000 rfl rfl (by decide) rfl
    (by decide) rfl).2.2.1 (by decide)

/-- C8: the pixel POST handler never touches the canvas cache: for every
request the cache component of the state is passed through unchanged. -/
theorem placePOST_cache_unchanged (st : ServerState) (req : PostRequest) (now : Int) :
    (placePOST st req now).2.1.cache = st.cache := by
  rcases hb : req.body with _ | body
  · rw [placePOST_of_invalidJson hb]
  rcases ht : bearerToken req.authHeader with _ | tok
  · rw [placePOST_of_missingAuth hb ht]
  rcases hx : isHexToken tok with _ | _
  · rw [placePOST_of_badTokenFormat hb ht hx]
  rcases hag : dbOps.getAgentByToken st.agents tok with _ | agent
  · rw [placePOST_of_unknownToken hb ht hx hag]
  rcases hcv : (validateCoordinates body.x body.y).valid with _ | _
  · rw [placePOST_of_invalidCoords hb ht hx hag hcv]
  by_cases hstr : ∃ c : String,
      (if jsFalsy body.color then JVal.s agent.color else body.color) = JVal.s c
  · obtain ⟨c, hcol⟩ := hstr
    rcases hpal : (validateColor (strToUpper c)).valid with _ | _
    · rw [placePOST_of_invalidColor hb ht hx hag hcv hcol hpal]
    rcases hapx : dbOps.atomicPlacePixel st.agents agent.id RATE_LIMIT_MS now with ⟨ret, ags⟩
    rcases ret with _ | r
    · rw [placePOST_of_rateLimited hb ht hx hag hcv hcol hpal hapx]
    · rw [placePOST_of_admitted hb ht hx hag hcv hcol hpal hapx]
  · push_neg at hstr
    rw [placePOST_of_nonStringColor hb ht hx hag hcv hstr]

/-- C8 (code mismatch made concrete): a successful placement commits the new
cell to the Grid Store, but even with the cache fully loaded the handler
skips the cache write, because it never calls canvasCache.updatePixel — the
call the cache module's own documentation requires ("Call this from the
pixel POST handler").  After the commit the loaded cache still lacks the
committed cell, while the one updatePixel call the handler should have made
would have inserted it. -/
theorem pixel_post_skips_loaded_cache :
    (placePOST stLoadedW reqW 8000).1 =
      PostResponse.success 5 5 "#E50000" "a1" "TestAgent" false none 15000
    ∧ dbOps.getPixel (placePOST stLoadedW reqW 8000).2.1.pixels 5 5 =
        some ⟨5, 5, "#E50000", "a1", 8000⟩
    ∧ (placePOST stLoadedW reqW 8000).2.1.cache = some []
    ∧ canvasCache.getPixel [] 5 5 = none
    ∧ canvasCache.updatePixel (some []) 5 5 "#E50000" "a1" 8000 =
        some [⟨5, 5, "#E50000", "a1", 8000⟩] :=
  ⟨by decide, by decide, by decide, by decide, by decide⟩

/-! ## The broadcaster's unsubscribe path (C9) -/

theorem clientsDelete_idem (cs : List (String × StreamClient)) (cid : String) :
    clientsDelete (clientsDelete cs cid) cid = clientsDelete cs cid := by
  simp [clientsDelete, List.filter_filter]

theorem ipMapGetD_delete (m : List (String × Nat)) (ip : String) :
    ipMapGetD (ipMapDelete m ip) ip = 0 := by
  have hf : List.find? (fun e => e.1 == ip) (ipMapDelete m ip) = none := by
    rw [List.find?_eq_none]
    intro a ha
    have hpa := List.of_mem_filter ha
    simp only [Bool.not_eq_true'] at hpa
    simp [hpa]
  unfold ipMapGetD
  rw [hf]

theorem releaseConnection_absent (m : List (String × Nat)) (ip : String)
    (h : ipMapGetD m ip = 0) :
    releaseConnection m ip = ipMapDelete m ip := by
  unfold releaseConnection
  rw [h]
  simp

theorem ipMapDelete_idem (m : List (String × Nat)) (ip : String) :
    ipMapDelete (ipMapDelete m ip) ip = ipMapDelete m ip := by
  simp [ipMapDelete, List.filter_filter]

/-- C9 counterexample: with two live connections from origin "o1" (counter
2), running the cleanup path twice for the same handle "c1" is not a no-op
the second time: the first run leaves counter 1, the second run decrements
again and removes the origin's entry even though connection "c2" is still
subscribed.  The broadcaster state after two runs differs from the state
after one. -/
theorem double_cleanup_changes_ip_counters :
    cleanupConnection broadcasterW "c1" "o1" =
      { clients := [("c2", ⟨"o1", 0⟩)], connectionsPerIP := [("o1", 1)] }
    ∧ cleanupConnection (cleanupConnection broadcasterW "c1" "o1") "c1" "o1" =
      { clients := [("c2", ⟨"o1", 0⟩)], connectionsPerIP := [] }
    ∧ cleanupConnection (cleanupConnection broadcasterW "c1" "o1") "c1" "o1" ≠
      cleanupConnection broadcasterW "c1" "o1" :=
  ⟨by decide, by decide, by decide⟩

theorem mapSet_filter (m : List (String × Nat)) (k : String) (v : Nat) :
    (m.map (fun e => if e.1 == k then (k, v) else e)).filter (fun e => !(e.1 == k)) =
      m.filter (fun e => !(e.1 == k)) := by
  induction m with
  | nil => rfl
  | cons e rest ih =>
    by_cases he : (e.1 == k) = true
    · rw [List.map_cons, if_pos he, List.filter_cons, List.filter_cons]
      rw [if_neg (by simp), if_neg (by simp [he])]
      exact ih
    · simp only [List.map_cons, List.filter_cons, if_neg he]
      rw [ih]

theorem ipMapDelete_set (m : List (String × Nat)) (k : String) (v : Nat) :
    ipMapDelete (ipMapSet m k v) k = ipMapDelete m k := by
  unfold ipMapSet ipMapDelete
  by_cases hany : (m.any (fun e => e.1 == k)) = true
  · rw [if_pos hany]
    exact mapSet_filter m k v
  · rw [if_neg hany]
    rw [List.filter_append]
    simp

theorem releaseConnection_of_le_one (m : List (String × Nat)) (ip : String)
    (h : ipMapGetD m ip ≤ 1) :
    releaseConnection m ip = ipMapDelete m ip := by
  unfold releaseConnection
  dsimp only
  rcases hn : ipMapGetD m ip with _ | n
  · rw [if_pos (by omega), if_neg (by omega)]
  · have hn1 : n = 0 := by rw [hn] at h; omega
    subst hn1
    rw [if_pos (by omega), if_pos (by omega)]
    exact ipMapDelete_set m ip 0

/-- C9 (amended): running the unsubscribe/cleanup path twice for the same
connection raises no error, and the second run never changes the subscriber
set; the whole broadcaster state (per-origin counters included) is unchanged
by the second run exactly when the connection's origin had at most one
tracked connection before the first cleanup — with more live connections
from the same origin, the second run decrements that origin's counter once
more (see the counterexample). -/
theorem cleanup_idempotent_conditions (st : BroadcasterState) (cid ip : String) :
    (cleanupConnection (cleanupConnection st cid ip) cid ip).clients =
      (cleanupConnection st cid ip).clients
    ∧ (ipMapGetD st.connectionsPerIP ip ≤ 1 →
        cleanupConnection (cleanupConnection st cid ip) cid ip =
          cleanupConnection st cid ip) := by
  refine ⟨clientsDelete_idem st.clients cid, ?_⟩
  intro hle
  have h1 : releaseConnection st.connectionsPerIP ip =
      ipMapDelete st.connectionsPerIP ip :=
    releaseConnection_of_le_one _ _ hle
  show (⟨clientsDelete (clientsDelete st.clients cid) cid,
         releaseConnection (releaseConnection st.connectionsPerIP ip) ip⟩ :
        BroadcasterState) =
       ⟨clientsDelete st.clients cid, releaseConnection st.connectionsPerIP ip⟩
  rw [clientsDelete_idem, h1,
    releaseConnection_of_le_one _ _ (by rw [ipMapGetD_delete]; omega),
    ipMapDelete_idem]

/-- Witness for C9's amended theorem: a single connection from origin "o2"
(counter 1); the second cleanup run is a complete no-op. -/
theorem cleanup_idempotent_conditions_witness :
    ipMapGetD [("o2", 1)] "o2" ≤ 1 ∧
      cleanupConnection (cleanupConnection ⟨[("c9", ⟨"o2", 3⟩)], [("o2", 1)]⟩ "c9" "o2")
          "c9" "o2" =
        cleanupConnection ⟨[("c9", ⟨"o2", 3⟩)], [("o2", 1)]⟩ "c9" "o2" :=
  ⟨by decide,
   (cleanup_idempotent_conditions ⟨[("c9", ⟨"o2", 3⟩)], [("o2", 1)]⟩ "c9" "o2").2
     (by decide)⟩

/-- C10: the public pixel GET endpoint performs no coordinate-range
validation.  For every integer pair — including coordinates outside
[0, 999] — it never answers InvalidCoordinates: it returns the stored cell
when one exists and NotFound otherwise; the InvalidCoordinates rejection
occurs exactly when x or y fails to parse as a number (NaN). -/
theorem pixelGET_no_range_validation
    (pixels : List Pixel) (agents : List Agent) (x y : Int) :
    (∀ msg, pixelGET pixels agents (some x) (some y) ≠ .invalidCoordinates msg)
    ∧ (dbOps.getPixel pixels x y = none →
        pixelGET pixels agents (some x) (some y) = .notFound x y)
    ∧ (∀ p, dbOps.getPixel pixels x y = some p →
        pixelGET pixels agents (some x) (some y) =
          .found p.x p.y p.color p.placed_at
            ((dbOps.getAgentById agents p.agent_id).map
              (fun a => ⟨a.id, a.name, a.color⟩)))
    ∧ (∀ (xq yq : Option Int),
        (∃ msg, pixelGET pixels agents xq yq = .invalidCoordinates msg) ↔
          xq = none ∨ yq = none) := by
  refine ⟨?_, ?_, ?_, ?_⟩
  · intro msg hcontra
    simp only [pixelGET] at hcontra
    rcases hp : dbOps.getPixel pixels x y with _ | p <;> rw [hp] at hcontra <;>
      simp at hcontra
  · intro hp
    simp only [pixelGET]
    rw [hp]
  · intro p hp
    simp only [pixelGET]
    rw [hp]
  · intro xq yq
    rcases xq with _ | x2
    · simp [pixelGET]
    rcases yq with _ | y2
    · simp [pixelGET]
    constructor
    · rintro ⟨msg, hmsg⟩
      simp only [pixelGET] at hmsg
      rcases hp : dbOps.getPixel pixels x2 y2 with _ | p <;> rw [hp] at hmsg <;>
        simp at hmsg
    · rintro (h | h) <;> exact absurd h (by simp)

/-- Witness for C10: the store holds a cell at (5000, -3), far outside the
canvas range, and the GET endpoint returns it rather than an
InvalidCoordinates error. -/
theorem pixelGET_no_range_validation_witness :
    dbOps.getPixel outOfRangePixelsW 5000 (-3) = some ⟨5000, -3, "#222222", "a1", 10⟩ ∧
      pixelGET outOfRangePixelsW [agentW] (some 5000) (some (-3)) =
        .found 5000 (-3) "#222222" 10 (some ⟨"a1", "TestAgent", "#E50000"⟩) := by
  refine ⟨by decide, ?_⟩
  have h := (pixelGET_no_range_validation outOfRangePixelsW [agentW] 5000 (-3)).2.2.1
    ⟨5000, -3, "#222222", "a1", 10⟩ (by decide)
  rw [h]
  decide

theorem apx_none_of_locked {agents : List Agent} {agentId : String} {cooldown n : Int}
    (h : lockedFor agents agentId cooldown n) :
    (dbOps.atomicPlacePixel agents agentId cooldown n).1 = none := by
  rw [apx_none_iff]
  intro a ha haid
  exact Int.not_lt.mp (h a ha haid)

theorem interleaveInv_swap {cooldown : Int} {agentId : String} {nA nB : Int}
    {st : ServerState} {ra rb : ReqRun}
    (h : InterleaveInv cooldown agentId nA nB st ra rb) :
    InterleaveInv cooldown agentId nB nA st rb ra :=
  ⟨h.uniq, h.countB, h.countA, h.flagB, h.flagA, h.lockB, h.lockA,
   fun hc => h.notBoth ⟨hc.2, hc.1⟩⟩

theorem admitProgress_swap {cooldown : Int} {agentId : String} {nA nB : Int}
    {st : ServerState} {ra rb : ReqRun}
    (h : admitProgress cooldown agentId nA nB st ra rb) :
    admitProgress cooldown agentId nB nA st rb ra := by
  rcases h with ⟨h1, h2, a, ha, hid, hA, hB⟩ | h | h
  · exact Or.inl ⟨h2, h1, a, ha, hid, hB, hA⟩
  · exact Or.inr (Or.inr h)
  · exact Or.inr (Or.inl h)

theorem stepReq_inv (cooldown : Int) (ctx : ReqCtx) (nB : Int)
    (hw : nB - ctx.now ≤ cooldown)
    (st : ServerState) (ra rb : ReqRun)
    (inv : InterleaveInv cooldown ctx.agentId ctx.now nB st ra rb) :
    InterleaveInv cooldown ctx.agentId ctx.now nB
      (stepReq cooldown ctx st ra).1 (stepReq cooldown ctx st ra).2 rb := by
  rcases hp : ra.pending with _ | ⟨op, rest⟩
  · simp only [stepReq, hp]
    exact inv
  have hsub : ∀ o : ReqOp, o ∈ rest → o ∈ ra.pending := by
    intro o ho
    rw [hp]
    exact List.mem_cons_of_mem _ ho
  have hcount : rest.count ReqOp.admission ≤ ra.pending.count ReqOp.admission := by
    rw [hp, List.count_cons]
    exact Nat.le_add_right _ _
  cases op with
  | readPrev =>
    simp only [stepReq, hp, doStoreOp]
    exact ⟨inv.uniq, le_trans hcount inv.countA, inv.countB,
      fun h hm => inv.flagA h (hsub _ hm),
      inv.flagB,
      fun h hm => inv.lockA h hm,
      fun h hm => inv.lockB h (hsub _ hm),
      inv.notBoth⟩
  | writePixel =>
    simp only [stepReq, hp, doStoreOp]
    by_cases hadm : ra.admitted = true
    · rw [if_pos hadm]
      exact ⟨inv.uniq, le_trans hcount inv.countA, inv.countB,
        fun h hm => inv.flagA h (hsub _ hm),
        inv.flagB,
        fun h hm => inv.lockA h hm,
        fun h hm => inv.lockB h (hsub _ hm),
        inv.notBoth⟩
    · rw [if_neg hadm]
      exact ⟨inv.uniq, le_trans hcount inv.countA, inv.countB,
        fun h hm => inv.flagA h (hsub _ hm),
        inv.flagB,
        fun h hm => inv.lockA h hm,
        fun h hm => inv.lockB h (hsub _ hm),
        inv.notBoth⟩
  | admission =>
    simp only [stepReq, hp, doStoreOp]
    have hpendA : admitPending ra := by
      rw [admitPending, hp]
      exact List.mem_cons_self _ _
    have hcnt1 : rest.count ReqOp.admission = 0 := by
      have hca := inv.countA
      rw [hp, List.count_cons_self] at hca
      omega
    have hnoadm : ReqOp.admission ∉ rest := by
      intro hmem
      have := List.count_pos_iff.mpr hmem
      omega
    have hraF : ra.admitted = false := by
      cases hb : ra.admitted
      · rfl
      · exact absurd hpendA (inv.flagA hb)
    by_cases hrb : rb.admitted = true
    · have hlock : lockedFor st.agents ctx.agentId cooldown ctx.now := inv.lockB hrb hpendA
      have hnone := apx_none_of_locked hlock
      have hags := apx_none_agents st.agents ctx.agentId cooldown ctx.now hnone
      rw [hnone, hags]
      exact ⟨inv.uniq, by show rest.count ReqOp.admission ≤ 1; omega, inv.countB,
        fun h _ => by simp at h,
        inv.flagB,
        fun h _ => by simp at h,
        fun _ hm => absurd hm hnoadm,
        fun hc => by simp at hc⟩
    · rcases hr : (dbOps.atomicPlacePixel st.agents ctx.agentId cooldown ctx.now).1 with _ | r
      · have hags := apx_none_agents st.agents ctx.agentId cooldown ctx.now hr
        rw [hags]
        exact ⟨inv.uniq, by show rest.count ReqOp.admission ≤ 1; omega, inv.countB,
          fun h _ => by simp at h,
          inv.flagB,
          fun h _ => by simp at h,
          fun h _ => absurd h hrb,
          fun hc => by simp at hc⟩
      · have hsome : (dbOps.atomicPlacePixel st.agents ctx.agentId cooldown ctx.now).1.isSome
            = true := by
          rw [hr]
          rfl
        obtain ⟨e, he, heid, helast⟩ :=
          (apx_isSome_iff st.agents ctx.agentId cooldown ctx.now).mp hsome
        refine ⟨apx_uniqueIds _ _ _ _ inv.uniq,
          by show rest.count ReqOp.admission ≤ 1; omega, inv.countB,
          fun _ => hnoadm, inv.flagB, ?_, fun h _ => absurd h hrb,
          fun hc => hrb hc.2⟩
        intro _ _ a2 ha2 haid2
        have hmm : a2 ∈ st.agents.map (fun a =>
            if eligibleRow ctx.agentId (ctx.now - cooldown) a then setLastPixelAt a ctx.now
            else a) := ha2
        rcases List.mem_map.mp hmm with ⟨a, ha, rfl⟩
        by_cases helig : eligibleRow ctx.agentId (ctx.now - cooldown) a = true
        · rw [if_pos helig] at haid2 ⊢
          show ¬((setLastPixelAt a ctx.now).last_pixel_at < nB - cooldown)
          show ¬(ctx.now < nB - cooldown)
          omega
        · exfalso
          rw [if_neg helig] at haid2
          have hae : a = e := uniqueIds_eq_of_mem inv.uniq ha he (haid2.trans heid.symm)
          refine helig ((eligibleRow_iff _ _ _).mpr ⟨haid2, ?_⟩)
          rw [hae]
          exact helast

theorem stepReq_progress (cooldown : Int) (ctx : ReqCtx) (nB : Int)
    (st : ServerState) (ra rb : ReqRun)
    (inv : InterleaveInv cooldown ctx.agentId ctx.now nB st ra rb)
    (j : admitProgress cooldown ctx.agentId ctx.now nB st ra rb) :
    admitProgress cooldown ctx.agentId ctx.now nB
      (stepReq cooldown ctx st ra).1 (stepReq cooldown ctx st ra).2 rb := by
  rcases hp : ra.pending with _ | ⟨op, rest⟩
  · simp only [stepReq, hp]
    exact j
  cases op with
  | readPrev =>
    simp only [stepReq, hp, doStoreOp]
    rcases j with ⟨h1, h2, he⟩ | h | h
    · left
      refine ⟨?_, h2, he⟩
      rw [admitPending, hp] at h1
      rcases List.mem_cons.mp h1 with heq | hmem
      · exact absurd heq (by decide)
      · exact hmem
    · exact Or.inr (Or.inl h)
    · exact Or.inr (Or.inr h)
  | writePixel =>
    simp only [stepReq, hp, doStoreOp]
    by_cases hadm : ra.admitted = true
    · rw [if_pos hadm]
      exact Or.inr (Or.inl hadm)
    · rw [if_neg hadm]
      rcases j with ⟨h1, h2, he⟩ | h | h
      · left
        refine ⟨?_, h2, he⟩
        rw [admitPending, hp] at h1
        rcases List.mem_cons.mp h1 with heq | hmem
        · exact absurd heq (by decide)
        · exact hmem
      · exact absurd h hadm
      · exact Or.inr (Or.inr h)
  | admission =>
    simp only [stepReq, hp, doStoreOp]
    rcases j with ⟨h1, h2, he⟩ | h | h
    · right
      left
      show (dbOps.atomicPlacePixel st.agents ctx.agentId cooldown ctx.now).1.isSome = true
      rw [apx_isSome_iff]
      obtain ⟨a, ha, hid2, hlA, hlB⟩ := he
      exact ⟨a, ha, hid2, hlA⟩
    · exact absurd (by rw [admitPending, hp]; exact List.mem_cons_self _ _) (inv.flagA h)
    · exact Or.inr (Or.inr h)

theorem execInterleaving_inv (cooldown : Int) (agentId : String) (ctxA ctxB : ReqCtx)
    (hA : ctxA.agentId = agentId) (hB : ctxB.agentId = agentId)
    (hw1 : ctxB.now - ctxA.now ≤ cooldown) (hw2 : ctxA.now - ctxB.now ≤ cooldown)
    (sched : List Bool) :
    ∀ (st : ServerState) (ra rb : ReqRun),
      InterleaveInv cooldown agentId ctxA.now ctxB.now st ra rb →
      InterleaveInv cooldown agentId ctxA.now ctxB.now
          (execInterleaving cooldown ctxA ctxB sched st ra rb).1
          (execInterleaving cooldown ctxA ctxB sched st ra rb).2.1
          (execInterleaving cooldown ctxA ctxB sched st ra rb).2.2
        ∧ (admitProgress cooldown agentId ctxA.now ctxB.now st ra rb →
           admitProgress cooldown agentId ctxA.now ctxB.now
             (execInterleaving cooldown ctxA ctxB sched st ra rb).1
             (execInterleaving cooldown ctxA ctxB sched st ra rb).2.1
             (execInterleaving cooldown ctxA ctxB sched st ra rb).2.2) := by
  subst hA
  induction sched with
  | nil =>
    intro st ra rb hi
    simp only [execInterleaving]
    exact ⟨hi, id⟩
  | cons b rest ih =>
    intro st ra rb hi
    cases b
    · simp only [execInterleaving]
      have hs : InterleaveInv cooldown ctxB.agentId ctxB.now ctxA.now st rb ra := by
        have h0 := interleaveInv_swap hi
        rw [← hB] at h0
        exact h0
      have hi2 : InterleaveInv cooldown ctxA.agentId ctxA.now ctxB.now
          (stepReq cooldown ctxB st rb).1 ra (stepReq cooldown ctxB st rb).2 := by
        have h1 := stepReq_inv cooldown ctxB ctxA.now hw2 st rb ra hs
        rw [hB] at h1
        exact interleaveInv_swap h1
      obtain ⟨hio, hjo⟩ := ih (stepReq cooldown ctxB st rb).1 ra
        (stepReq cooldown ctxB st rb).2 hi2
      refine ⟨hio, fun hj => hjo ?_⟩
      have hjs : admitProgress cooldown ctxB.agentId ctxB.now ctxA.now st rb ra := by
        have h0 := admitProgress_swap hj
        rw [← hB] at h0
        exact h0
      have h1 := stepReq_progress cooldown ctxB ctxA.now st rb ra hs hjs
      rw [hB] at h1
      exact admitProgress_swap h1
    · simp only [execInterleaving]
      have hi2 := stepReq_inv cooldown ctxA ctxB.now hw1 st ra rb hi
      obtain ⟨hio, hjo⟩ := ih (stepReq cooldown ctxA st ra).1
        (stepReq cooldown ctxA st ra).2 rb hi2
      exact ⟨hio, fun hj => hjo (stepReq_progress cooldown ctxA ctxB.now st ra rb hi hj)⟩

/-- C2: for every agent and any two placement requests from that agent run
concurrently — modelled as the two requests' store operations (the atomic
conditional cooldown update, the override read, the pixel upsert) executed
under an arbitrary interleaving — at most one of the two passes the cooldown
admission, provided the two requests' timestamps lie within one cooldown of
each other (the meaning of "truly concurrent": neither request's `Date.now()`
is more than a full cooldown after the other's) and agent ids are unique
(`id` is the table's primary key).  Moreover, when both requests run to
completion and the agent was eligible for both timestamps, exactly one is
admitted: the other's conditional update matched no row, which the route
answers with RateLimited (see the C1 theorem). -/
theorem two_concurrent_requests_cooldown_exclusive
    (cooldown : Int) (agentId : String) (ctxA ctxB : ReqCtx)
    (hA : ctxA.agentId = agentId) (hB : ctxB.agentId = agentId)
    (hw1 : ctxB.now - ctxA.now ≤ cooldown) (hw2 : ctxA.now - ctxB.now ≤ cooldown)
    (st : ServerState) (hU : uniqueIds st.agents) (sched : List Bool) :
    ¬((execInterleaving cooldown ctxA ctxB sched st initRun initRun).2.1.admitted = true ∧
      (execInterleaving cooldown ctxA ctxB sched st initRun initRun).2.2.admitted = true)
    ∧ (((execInterleaving cooldown ctxA ctxB sched st initRun initRun).2.1.pending = [] ∧
        (execInterleaving cooldown ctxA ctxB sched st initRun initRun).2.2.pending = [] ∧
        eligBoth st.agents agentId cooldown ctxA.now ctxB.now) →
        ((execInterleaving cooldown ctxA ctxB sched st initRun initRun).2.1.admitted = true ∨
         (execInterleaving cooldown ctxA ctxB sched st initRun initRun).2.2.admitted = true)) := by
  have hinit : InterleaveInv cooldown agentId ctxA.now ctxB.now st initRun initRun := by
    refine ⟨hU, by decide, by decide, ?_, ?_, ?_, ?_, ?_⟩
    · intro h
      simp [initRun] at h
    · intro h
      simp [initRun] at h
    · intro h
      simp [initRun] at h
    · intro h
      simp [initRun] at h
    · intro hc
      simp [initRun] at hc
  obtain ⟨hio, hjo⟩ := execInterleaving_inv cooldown agentId ctxA ctxB hA hB hw1 hw2
    sched st initRun initRun hinit
  refine ⟨hio.notBoth, ?_⟩
  rintro ⟨hpa, hpb, he⟩
  have hj := hjo (Or.inl ⟨show ReqOp.admission ∈ initRun.pending by decide,
    show ReqOp.admission ∈ initRun.pending by decide, he⟩)
  rcases hj with ⟨hpa2, -, -⟩ | h | h
  · rw [admitPending, hpa] at hpa2
    exact absurd hpa2 (List.not_mem_nil _)
  · exact Or.inl h
  · exact Or.inr h

/-- Witness for C2: a concrete run in which request A (timestamp 1000) and
request B (timestamp 1500) alternate their store operations; A's admission
succeeds, and the theorem rules out both succeeding. -/
theorem two_concurrent_requests_cooldown_exclusive_witness :
    (execInterleaving 7000 ctxAW ctxBW [true, false, true, false, true, false]
        stEligW initRun initRun).2.1.admitted = true
    ∧ ¬((execInterleaving 7000 ctxAW ctxBW [true, false, true, false, true, false]
          stEligW initRun initRun).2.1.admitted = true ∧
        (execInterleaving 7000 ctxAW ctxBW [true, false, true, false, true, false]
          stEligW initRun initRun).2.2.admitted = true) := by
  refine ⟨by decide, ?_⟩
  exact (two_concurrent_requests_cooldown_exclusive 7000 "a1" ctxAW ctxBW rfl rfl
    (by decide) (by decide) stEligW (List.pairwise_singleton _ _)
    [true, false, true, false, true, false]).1
